import Mathlib

/-!
Verification development for the `siteadmin` self-updating supervisor
(`src/start.py`, class `CDNLoader`).

The Python program is embedded shallowly:

* The key-value configuration handled by `backup_persistent_files` /
  `restore_env_file` is modelled as an insertion-ordered association list
  (`Dict`), the image of a Python `dict` of strings.
* The filesystem interactions of the StateMigrator functions
  (`restore_persistent_files`, `restore_env_file`) are modelled over a
  state record `VState` describing the target version directory and the
  transient holding area `cdn_backup_temp/`; fallible `shutil` copies are
  driven by boolean oracles and a failing copy produces an `Except.error`
  carrying the state at raise time (a Python exception escaping the
  function, which has no try/except around those copies).
* Version discovery (`get_newest_cdn`) is modelled over the root
  directory listing (`List Entry`); the regex `^cdn-(\d+\.\d+\.\d+)$` is
  embedded as an executable matcher on the character list, and Python's
  `int(version.replace('.', ''))` as `versionNum`.
* The orchestrator (`check_and_update`, `run_with_updates`) is modelled
  over a coarser world state `OWorld` with outcome oracles for the
  network, download, extraction, copies and launches, mirroring the
  source's control flow branch by branch; uncaught Python exceptions are
  `Except.error` values that propagate exactly where the source lets
  them propagate.
-/

namespace SiteAdmin

/-! ## Key-value configuration (Python `dict` of strings) -/

/-- A Python `dict[str, str]` as an insertion-ordered association list
with unique keys (`nodupKeys` states the uniqueness). -/
abbrev Dict := List (String × String)

/-- `d[k] = v` on a Python dict: replace the first binding of `k` in
place, or append a new binding at the end. -/
def dictInsert : Dict → String → String → Dict
  | [], k, v => [(k, v)]
  | p :: ps, k, v => if p.1 = k then (k, v) :: ps else p :: dictInsert ps k v

/-- Dictionary lookup (first binding wins; Python dicts have unique
keys, so this is the binding). -/
def dictGet? : Dict → String → Option String
  | [], _ => none
  | p :: ps, k => if p.1 = k then some p.2 else dictGet? ps k

/-- Python's `{**ex, **bk}`: start from a copy of `ex` and insert the
items of `bk` in order. -/
def dictMerge (ex bk : Dict) : Dict :=
  bk.foldl (fun d p => dictInsert d p.1 p.2) ex

/-- The keys of the dict are pairwise distinct (always true of the image
of an actual Python dict). -/
abbrev nodupKeys (d : Dict) : Prop := (d.map Prod.fst).Nodup

theorem dictGet_insert (d : Dict) (k v k' : String) :
    dictGet? (dictInsert d k v) k' = if k' = k then some v else dictGet? d k' := by
  induction d with
  | nil =>
    simp only [dictInsert, dictGet?]
    split <;> split <;> simp_all [dictGet?]
  | cons p ps ih =>
    simp only [dictInsert]
    by_cases hpk : p.1 = k
    · simp only [hpk, if_pos rfl, dictGet?]
      by_cases hk : k' = k
      · simp [hk]
      · have hkk : ¬ k = k' := fun h => hk h.symm
        simp [hk, hkk, hpk, dictGet?]
    · simp only [if_neg hpk, dictGet?]
      by_cases hpk' : p.1 = k'
      · have hk : ¬ k' = k := fun h => hpk (by rw [hpk', h])
        simp [hpk', hk]
      · simp [hpk', ih]

theorem dictGet_eq_none_of_not_mem_keys (d : Dict) (k : String)
    (h : k ∉ d.map Prod.fst) : dictGet? d k = none := by
  induction d with
  | nil => rfl
  | cons p ps ih =>
    simp only [List.map_cons, List.mem_cons] at h
    push_neg at h
    simp only [dictGet?, if_neg (fun hh : p.1 = k => h.1 hh.symm)]
    exact ih h.2

theorem dictGet_merge_of_not_mem (d bk : Dict) (k : String)
    (hk : k ∉ bk.map Prod.fst) :
    dictGet? (dictMerge d bk) k = dictGet? d k := by
  induction bk generalizing d with
  | nil => rfl
  | cons p ps ih =>
    simp only [List.map_cons, List.mem_cons] at hk
    push_neg at hk
    show dictGet? (dictMerge (dictInsert d p.1 p.2) ps) k = dictGet? d k
    rw [ih _ hk.2, dictGet_insert, if_neg hk.1]

theorem dictGet_merge (ex bk : Dict) (hbk : nodupKeys bk) (k : String) :
    dictGet? (dictMerge ex bk) k =
      match dictGet? bk k with
      | some v => some v
      | none => dictGet? ex k := by
  induction bk generalizing ex with
  | nil => rfl
  | cons p ps ih =>
    have hsplit : p.1 ∉ ps.map Prod.fst ∧ (ps.map Prod.fst).Nodup := by
      have h0 := hbk
      rw [nodupKeys, List.map_cons, List.nodup_cons] at h0
      exact h0
    have hnd : nodupKeys ps := hsplit.2
    have hp : p.1 ∉ ps.map Prod.fst := hsplit.1
    show dictGet? (dictMerge (dictInsert ex p.1 p.2) ps) k = _
    by_cases hk : k = p.1
    · subst hk
      rw [dictGet_merge_of_not_mem _ _ _ hp, dictGet_insert, if_pos rfl]
      simp [dictGet?]
    · rw [ih _ hnd]
      have : dictGet? (dictInsert ex p.1 p.2) k = dictGet? ex k := by
        rw [dictGet_insert, if_neg hk]
      rw [this]
      have hk' : ¬ p.1 = k := fun h => hk h.symm
      simp [dictGet?, hk']

theorem dictInsert_of_get (d : Dict) (k v : String)
    (h : dictGet? d k = some v) : dictInsert d k v = d := by
  induction d with
  | nil => simp [dictGet?] at h
  | cons p ps ih =>
    by_cases hpk : p.1 = k
    · simp only [dictGet?, if_pos hpk, Option.some.injEq] at h
      simp only [dictInsert, if_pos hpk]
      rw [← hpk, ← h]
    · simp only [dictGet?, if_neg hpk] at h
      simp [dictInsert, hpk, ih h]

theorem dictMerge_fix (d : Dict) (bk : Dict)
    (h : ∀ p ∈ bk, dictGet? d p.1 = some p.2) : dictMerge d bk = d := by
  induction bk with
  | nil => rfl
  | cons p ps ih =>
    show dictMerge (dictInsert d p.1 p.2) ps = d
    rw [dictInsert_of_get d p.1 p.2 (h p (List.mem_cons_self p ps))]
    exact ih fun q hq => h q (List.mem_cons_of_mem p hq)

theorem dictGet_of_mem (bk : Dict) :
    nodupKeys bk → ∀ p ∈ bk, dictGet? bk p.1 = some p.2 := by
  induction bk with
  | nil => intro _ p hp; cases hp
  | cons q qs ih =>
    intro hbk p hp
    have hnd : q.1 ∉ qs.map Prod.fst ∧ (qs.map Prod.fst).Nodup := by
      rw [nodupKeys, List.map_cons, List.nodup_cons] at hbk
      exact hbk
    rcases List.mem_cons.mp hp with rfl | hq
    · simp [dictGet?]
    · have hq1 : ¬ q.1 = p.1 := by
        intro hh
        exact hnd.1 (hh ▸ List.mem_map_of_mem Prod.fst hq)
      simp only [dictGet?, if_neg hq1]
      exact ih hnd.2 p hq

theorem mergeAll_get (ex bk : Dict) (hbk : nodupKeys bk) :
    ∀ p ∈ bk, dictGet? (dictMerge ex bk) p.1 = some p.2 := by
  intro p hp
  rw [dictGet_merge ex bk hbk p.1, dictGet_of_mem bk hbk p hp]

theorem dictMerge_idem (ex bk : Dict) (hbk : nodupKeys bk) :
    dictMerge (dictMerge ex bk) bk = dictMerge ex bk :=
  dictMerge_fix _ _ (fun p hp => mergeAll_get ex bk hbk p hp)

/-! ## The `.env` parser of `backup_persistent_files` / `restore_env_file`
(src/start.py lines 63-69 and 103-110). -/

/-- Python `str.strip()` on the characters of a line. -/
def stripChars (cs : List Char) : List Char :=
  ((cs.dropWhile Char.isWhitespace).reverse.dropWhile Char.isWhitespace).reverse

/-- One iteration of the parse loop: `line = line.strip()`; if the line
is non-empty, not `#`-prefixed and contains `=`, split on the first `=`
and store `key.strip() -> value.strip()` (src/start.py lines 65-69,
106-110). -/
def parseEnvLine (d : Dict) (line : String) : Dict :=
  let l := stripChars line.toList
  if l.isEmpty then d
  else if l.head? = some '#' then d
  else if l.contains '=' then
    let key := l.takeWhile (fun c => c != '=')
    let value := (l.dropWhile (fun c => c != '=')).drop 1
    dictInsert d (String.mk (stripChars key)) (String.mk (stripChars value))
  else d

/-- The whole `.env` parse: fold the line parser over the file's lines,
starting from an empty dict. -/
def parseEnvLines (lines : List String) : Dict :=
  lines.foldl parseEnvLine []

/-- `restore_env_file` (src/start.py lines 97-122), viewed on the parsed
key-value content of the target `.env` file.  The generated header
lines (`# Last updated: ...` and the migration note) are comments and a
blank line, all invisible to the parser above, so the parsed content of
the rewritten file is exactly `{**existing_content, **backup_content}`.
`if not backup_content: return` leaves the file untouched. -/
def restore_env_file (existing : Dict) (backup : Dict) : Dict :=
  if backup.isEmpty then existing
  else dictMerge existing backup

/-! ## Version identifiers and discovery (`get_newest_cdn`,
src/start.py lines 22-54). -/

/-- Split a character list at every dot, keeping empty groups, so that
the groups are exactly the `\d+`-candidates of the version regex. -/
def splitDots : List Char → List (List Char)
  | [] => [[]]
  | c :: cs =>
    if c = '.' then [] :: splitDots cs
    else
      match splitDots cs with
      | [] => [[c]]
      | p :: ps => (c :: p) :: ps

/-- The language of the regex body `\d+\.\d+\.\d+`: exactly three
dot-separated, non-empty, all-digit groups. -/
def isVersionChars (cs : List Char) : Bool :=
  match splitDots cs with
  | [p1, p2, p3] =>
    !p1.isEmpty && p1.all Char.isDigit && !p2.isEmpty && p2.all Char.isDigit &&
      !p3.isEmpty && p3.all Char.isDigit
  | _ => false

/-- The anchored regex `^cdn-(\d+\.\d+\.\d+)$` of `get_newest_cdn`
(src/start.py line 27), returning the captured group on a match. -/
def matchCdn (name : String) : Option String :=
  let cs := name.toList
  if (cs.take 4 == ['c', 'd', 'n', '-']) && isVersionChars (cs.drop 4) then
    some (String.mk (cs.drop 4))
  else none

/-- A well-formed version identifier of the spec's data model: a dotted
triple of non-negative integers — exactly the strings the directory
pattern accepts as its capture group. -/
def wellFormedVersion (v : String) : Bool :=
  isVersionChars v.toList

/-- Decimal value of a digit string (`int` applied to it). -/
def digitsToNat (cs : List Char) : Nat :=
  cs.foldl (fun a c => a * 10 + (c.toNat - 48)) 0

/-- `int(version.replace('.', ''))` (src/start.py line 34): drop the
dots and read the concatenated digits as one decimal integer. -/
def versionNum (v : String) : Nat :=
  digitsToNat (v.toList.filter (fun c => c != '.'))

/-- One entry of `os.listdir(self.current_path)` together with its
`os.path.isdir` status. -/
structure Entry where
  name : String
  isDir : Bool
deriving DecidableEq

/-- One element of the `cdn_dirs` list built by `get_newest_cdn`
(src/start.py lines 35-39); `path` is the directory name relative to
the working root. -/
structure CdnDir where
  path : String
  version : String
  version_num : Nat
deriving DecidableEq

/-- The `cdn_dirs` collection loop (src/start.py lines 29-39): keep the
entries whose name matches the pattern and which are directories. -/
def collectCdnDirs (entries : List Entry) : List CdnDir :=
  entries.filterMap fun e =>
    match matchCdn e.name with
    | some v => if e.isDir then some ⟨e.name, v, versionNum v⟩ else none
    | none => none

/-- Stable insertion step of the descending sort: insert `a` before the
first element whose key does not exceed `a`'s, so equal keys keep their
original relative order — the behaviour of Python's stable
`list.sort(key=..., reverse=True)`. -/
def insertDesc (a : CdnDir) : List CdnDir → List CdnDir
  | [] => [a]
  | b :: bs =>
    if b.version_num ≤ a.version_num then a :: b :: bs else b :: insertDesc a bs

/-- `cdn_dirs.sort(key=lambda x: x['version_num'], reverse=True)`
(src/start.py line 44) as a stable descending insertion sort. -/
def sortDesc : List CdnDir → List CdnDir
  | [] => []
  | a :: as => insertDesc a (sortDesc as)

/-- `get_newest_cdn` (src/start.py lines 22-54): collect the matching
directories, sort descending by concatenated version number, return the
head; every remaining element has `shutil.rmtree` attempted on it
(lines 47-52).  The returned pair is (newest entry, directories whose
deletion is attempted); `(none, [])` models the `return None` paths. -/
def get_newest_cdn (entries : List Entry) : Option CdnDir × List CdnDir :=
  match sortDesc (collectCdnDirs entries) with
  | [] => (none, [])
  | newest :: rest => (some newest, rest)

theorem insertDesc_perm (a : CdnDir) : ∀ l : List CdnDir, (insertDesc a l).Perm (a :: l)
  | [] => List.Perm.refl _
  | b :: bs => by
    unfold insertDesc
    split
    · exact List.Perm.refl _
    · exact ((insertDesc_perm a bs).cons b).trans (List.Perm.swap a b bs)

theorem sortDesc_perm : ∀ l : List CdnDir, (sortDesc l).Perm l
  | [] => List.Perm.refl _
  | a :: as => (insertDesc_perm a (sortDesc as)).trans ((sortDesc_perm as).cons a)

theorem mem_insertDesc {x a : CdnDir} {l : List CdnDir} :
    x ∈ insertDesc a l ↔ x = a ∨ x ∈ l := by
  rw [(insertDesc_perm a l).mem_iff, List.mem_cons]

theorem insertDesc_pairwise {a : CdnDir} {l : List CdnDir}
    (h : l.Pairwise fun x y => y.version_num ≤ x.version_num) :
    (insertDesc a l).Pairwise fun x y => y.version_num ≤ x.version_num := by
  induction l with
  | nil => simp [insertDesc]
  | cons b bs ih =>
    rw [List.pairwise_cons] at h
    obtain ⟨hb, hbs⟩ := h
    unfold insertDesc
    split
    · rename_i hba
      refine List.Pairwise.cons ?_ (List.Pairwise.cons hb hbs)
      intro y hy
      rcases List.mem_cons.mp hy with rfl | hy
      · exact hba
      · exact le_trans (hb y hy) hba
    · rename_i hba
      refine List.Pairwise.cons ?_ (ih hbs)
      intro y hy
      rcases mem_insertDesc.mp hy with rfl | hy
      · omega
      · exact hb y hy

theorem sortDesc_pairwise : ∀ l : List CdnDir,
    (sortDesc l).Pairwise fun x y => y.version_num ≤ x.version_num
  | [] => List.Pairwise.nil
  | a :: as => insertDesc_pairwise (sortDesc_pairwise as)

theorem collect_eq_nil_of_no_match (entries : List Entry)
    (h : ∀ e ∈ entries, matchCdn e.name = none) : collectCdnDirs entries = [] := by
  rw [collectCdnDirs, List.filterMap_eq_nil_iff]
  intro e he
  rw [h e he]

/-- C1: for every root directory listing, `get_newest_cdn` returns a
matching installed-version directory whose concatenated version number
is greatest among all matching directories, attempts deletion of
exactly the other matching directories (the returned deletion list is a
permutation of the rest), and returns nothing when no directory name
matches the version pattern. -/
theorem get_newest_cdn_spec (entries : List Entry) :
    ((get_newest_cdn entries).1 = none ↔ collectCdnDirs entries = []) ∧
    ((∀ e ∈ entries, matchCdn e.name = none) → get_newest_cdn entries = (none, [])) ∧
    (∀ newest deleted, get_newest_cdn entries = (some newest, deleted) →
      newest ∈ collectCdnDirs entries ∧
      (∀ d ∈ collectCdnDirs entries, d.version_num ≤ newest.version_num) ∧
      (newest :: deleted).Perm (collectCdnDirs entries)) := by
  rcases hs : sortDesc (collectCdnDirs entries) with _ | ⟨n, rest⟩
  · have hnil : collectCdnDirs entries = [] := by
      have hp := sortDesc_perm (collectCdnDirs entries)
      rw [hs] at hp
      exact hp.symm.eq_nil
    refine ⟨by simp [get_newest_cdn, hs, hnil, sortDesc], ?_, ?_⟩
    · intro _
      simp [get_newest_cdn, hs]
    · intro newest deleted h
      simp [get_newest_cdn, hs] at h
  · have hperm : (n :: rest).Perm (collectCdnDirs entries) := by
      have hp := sortDesc_perm (collectCdnDirs entries)
      rwa [hs] at hp
    have hpw := sortDesc_pairwise (collectCdnDirs entries)
    rw [hs, List.pairwise_cons] at hpw
    refine ⟨?_, ?_, ?_⟩
    · simp only [get_newest_cdn, hs]
      constructor
      · intro h
        cases h
      · intro h
        rw [h] at hperm
        exact (List.cons_ne_nil n rest hperm.eq_nil).elim
    · intro hall
      have hnil := collect_eq_nil_of_no_match entries hall
      rw [hnil] at hs
      cases hs
    · intro newest deleted h
      simp only [get_newest_cdn, hs, Prod.mk.injEq, Option.some.injEq] at h
      obtain ⟨rfl, rfl⟩ := h
      refine ⟨hperm.subset (List.mem_cons_self n rest), ?_, hperm⟩
      intro d hd
      have hdm : d ∈ n :: rest := hperm.symm.subset hd
      rcases List.mem_cons.mp hdm with rfl | hdr
      · exact le_refl _
      · exact hpw.1 d hdr

def demoEntries : List Entry :=
  [⟨"cdn-1.2.3", true⟩, ⟨"cdn-1.10.0", true⟩, ⟨"notes.txt", false⟩]

def demoNewest : CdnDir := ⟨"cdn-1.10.0", "1.10.0", 1100⟩

def demoOld : CdnDir := ⟨"cdn-1.2.3", "1.2.3", 123⟩

/-- Witness for C1: on a root containing `cdn-1.2.3`, `cdn-1.10.0` and a
non-matching file, discovery selects `cdn-1.10.0` (1100 > 123) and
schedules deletion of exactly `cdn-1.2.3`. -/
theorem get_newest_cdn_spec_witness :
    demoNewest ∈ collectCdnDirs demoEntries ∧
    (∀ d ∈ collectCdnDirs demoEntries, d.version_num ≤ demoNewest.version_num) ∧
    (demoNewest :: [demoOld]).Perm (collectCdnDirs demoEntries) :=
  (get_newest_cdn_spec demoEntries).2.2 demoNewest [demoOld] (by decide)

/-- C6 counterexample: the concatenated-integer mapping is not
injective on well-formed dotted triples — `1.23.0` and `12.3.0` are
distinct well-formed identifiers that both map to 1230, so no strict
ordering places one above the other. -/
theorem versionNum_not_injective :
    wellFormedVersion "1.23.0" = true ∧ wellFormedVersion "12.3.0" = true ∧
    ("1.23.0" : String) ≠ "12.3.0" ∧ versionNum "1.23.0" = versionNum "12.3.0" :=
  ⟨by decide, by decide, by decide, by decide⟩

/-- C6 (amended): the concatenated-integer comparison yields exactly one
strict ordering for two well-formed identifiers only when their
concatenated integers differ; the mapping itself is not injective
(distinct identifiers such as `1.23.0` and `12.3.0` collide at 1230). -/
theorem versionNum_order_of_ne (a b : String)
    (ha : wellFormedVersion a = true) (hb : wellFormedVersion b = true)
    (hne : versionNum a ≠ versionNum b) :
    (versionNum a < versionNum b ∧ ¬ versionNum b < versionNum a) ∨
      (versionNum b < versionNum a ∧ ¬ versionNum a < versionNum b) := by
  rcases Nat.lt_or_ge (versionNum a) (versionNum b) with h | h
  · exact Or.inl ⟨h, by omega⟩
  · exact Or.inr ⟨by omega, by omega⟩

/-- Witness for the amended C6 at `1.2.3` (123) and `1.10.0` (1100). -/
theorem versionNum_order_of_ne_witness :
    (versionNum "1.2.3" < versionNum "1.10.0" ∧
        ¬ versionNum "1.10.0" < versionNum "1.2.3") ∨
      (versionNum "1.10.0" < versionNum "1.2.3" ∧
        ¬ versionNum "1.2.3" < versionNum "1.10.0") :=
  versionNum_order_of_ne "1.2.3" "1.10.0" (by decide) (by decide) (by decide)

/-- C9 counterexample: the directory pattern `^cdn-(\d+\.\d+\.\d+)$`
accepts components with leading zeros — `cdn-01.2.3` matches, contrary
to the claim that such names are rejected. -/
theorem cdn_accepts_leading_zeros :
    matchCdn "cdn-01.2.3" = some "01.2.3" := by decide

/-- C9 (amended): the pattern rejects identifiers with extra segments
(every accepted capture has exactly three non-empty digit groups, and
`cdn-1.2.3.4` is rejected), but it accepts leading zeros
(`cdn-01.2.3` matches). -/
theorem cdn_matching_segments :
    (∀ name v, matchCdn name = some v → isVersionChars v.toList = true) ∧
    matchCdn "cdn-1.2.3.4" = none ∧
    matchCdn "cdn-01.2.3" = some "01.2.3" := by
  refine ⟨?_, by decide, by decide⟩
  intro name v h
  simp only [matchCdn] at h
  by_cases hc : ((name.toList.take 4 == ['c', 'd', 'n', '-']) &&
      isVersionChars (name.toList.drop 4)) = true
  · rw [if_pos hc] at h
    obtain rfl : String.mk (name.toList.drop 4) = v := by
      injection h
    rw [Bool.and_eq_true] at hc
    exact hc.2
  · rw [if_neg hc] at h
    cases h

/-- Witness for the amended C9 at the accepted name `cdn-01.2.3`. -/
theorem cdn_matching_segments_witness :
    isVersionChars (String.toList "01.2.3") = true :=
  cdn_matching_segments.1 "cdn-01.2.3" "01.2.3" (by decide)

/-! ## StateMigrator: `restore_persistent_files` over the target
version directory and the holding area (src/start.py lines 83-95). -/

/-- Contents of the holding area `cdn_backup_temp/`: the optional copy
of `database.db` and the optional `uploads/` tree (file name to file
content). -/
structure Holding where
  db : Option String
  uploads : Option Dict
deriving DecidableEq

/-- State touched by `restore_persistent_files`: the target version
directory's parsed `.env` content, its `database.db`, its `uploads/`
tree, and the holding area (`none` = the directory `cdn_backup_temp/`
does not exist). -/
structure VState where
  env : Dict
  db : Option String
  uploads : Option Dict
  holding : Option Holding
deriving DecidableEq

/-- Lines 87-89: `if os.path.exists(db_backup): shutil.copy2(...)`.
The copy is NOT wrapped in try/except in the source; a failing copy
(oracle `okDb = false`) raises, modelled as an error carrying the state
at raise time. -/
def copyDb (okDb : Bool) (s : VState) : Except (String × VState) VState :=
  match s.holding with
  | some h =>
    match h.db with
    | some b =>
      if okDb then Except.ok { s with db := some b }
      else Except.error ("copy2 failed", s)
    | none => Except.ok s
  | none => Except.ok s

/-- Lines 91-93: `if os.path.exists(uploads_backup):
shutil.copytree(..., dirs_exist_ok=True)` — merge the backed-up tree
over the target tree; also not wrapped in try/except. -/
def copyUploads (okUp : Bool) (s : VState) : Except (String × VState) VState :=
  match s.holding with
  | some h =>
    match h.uploads with
    | some t =>
      if okUp then
        Except.ok { s with uploads := some (dictMerge (s.uploads.getD []) t) }
      else Except.error ("copytree failed", s)
    | none => Except.ok s
  | none => Except.ok s

/-- Lines 84-85: `if env_backup: self.restore_env_file(cdn_path,
env_backup)` — rewrite the target `.env` when the snapshot is
non-empty (`restore_env_file` itself never raises: its read and write
are inside try/except in the source). -/
def envStep (envBackup : Dict) (s : VState) : VState :=
  if envBackup.isEmpty then s
  else { s with env := restore_env_file s.env envBackup }

/-- `restore_persistent_files` (src/start.py lines 83-95):
`if env_backup:` rewrite `.env` via `restore_env_file`; copy back
`database.db` and `uploads/` when present in the holding area (either
copy may raise, and then the rest of the function does not run);
finally `shutil.rmtree(backup_dir, ignore_errors=True)` removes the
holding area. -/
def restore_persistent_files (okDb okUp : Bool) (envBackup : Dict) (s0 : VState) :
    Except (String × VState) VState :=
  match copyDb okDb (envStep envBackup s0) with
  | Except.error e => Except.error e
  | Except.ok s2 =>
    match copyUploads okUp s2 with
    | Except.error e => Except.error e
    | Except.ok s3 => Except.ok { s3 with holding := none }

theorem envStep_holding (bk : Dict) (s : VState) :
    (envStep bk s).holding = s.holding := by
  unfold envStep
  by_cases hbke : bk.isEmpty <;> simp [hbke]

theorem envStep_db (bk : Dict) (s : VState) : (envStep bk s).db = s.db := by
  unfold envStep
  by_cases hbke : bk.isEmpty <;> simp [hbke]

theorem envStep_uploads (bk : Dict) (s : VState) :
    (envStep bk s).uploads = s.uploads := by
  unfold envStep
  by_cases hbke : bk.isEmpty <;> simp [hbke]

theorem envStep_env (bk : Dict) (s : VState) :
    (envStep bk s).env = restore_env_file s.env bk := by
  unfold envStep
  by_cases hbke : bk.isEmpty
  · have : bk = [] := by
      cases bk
      · rfl
      · cases hbke
    subst this
    simp [restore_env_file]
  · simp [hbke]

theorem copyDb_ok (okDb : Bool) (s s' : VState) (h : copyDb okDb s = Except.ok s') :
    s'.env = s.env ∧ s'.uploads = s.uploads := by
  rcases s with ⟨e, d, u, _ | ⟨hd, hu⟩⟩
  · cases h
    exact ⟨rfl, rfl⟩
  · rcases hd with _ | b
    · cases h
      exact ⟨rfl, rfl⟩
    · rcases okDb with _ | _
      · simp [copyDb] at h
      · cases h
        exact ⟨rfl, rfl⟩

theorem copyUploads_ok (okUp : Bool) (s s' : VState)
    (h : copyUploads okUp s = Except.ok s') :
    s'.env = s.env ∧ s'.db = s.db := by
  rcases s with ⟨e, d, u, _ | ⟨hd, hu⟩⟩
  · cases h
    exact ⟨rfl, rfl⟩
  · rcases hu with _ | t
    · cases h
      exact ⟨rfl, rfl⟩
    · rcases okUp with _ | _
      · simp [copyUploads] at h
      · cases h
        exact ⟨rfl, rfl⟩

theorem copyDb_of_holding_none (okDb : Bool) (s : VState) (h : s.holding = none) :
    copyDb okDb s = Except.ok s := by
  rcases s with ⟨e, d, u, ho⟩
  cases h
  rfl

theorem copyUploads_of_holding_none (okUp : Bool) (s : VState) (h : s.holding = none) :
    copyUploads okUp s = Except.ok s := by
  rcases s with ⟨e, d, u, ho⟩
  cases h
  rfl

theorem copyDb_total (s : VState) : ∃ s', copyDb true s = Except.ok s' := by
  rcases s with ⟨e, d, u, _ | ⟨hd, hu⟩⟩
  · exact ⟨_, rfl⟩
  · rcases hd with _ | b
    · exact ⟨_, rfl⟩
    · exact ⟨_, rfl⟩

theorem copyUploads_total (s : VState) : ∃ s', copyUploads true s = Except.ok s' := by
  rcases s with ⟨e, d, u, _ | ⟨hd, hu⟩⟩
  · exact ⟨_, rfl⟩
  · rcases hu with _ | t
    · exact ⟨_, rfl⟩
    · exact ⟨_, rfl⟩

theorem copyDb_fail (s : VState) (hld : Holding) (b : String)
    (hh : s.holding = some hld) (hdb : hld.db = some b) :
    copyDb false s = Except.error ("copy2 failed", s) := by
  rcases s with ⟨e, d, u, ho⟩
  cases hh
  rcases hld with ⟨hd, hu⟩
  cases hdb
  rfl

/-- Shape of every successful restore: the `.env` content is the merge
of the snapshot over the previous content, and the holding area is
gone. -/
instance {ε α : Type} [DecidableEq ε] [DecidableEq α] : DecidableEq (Except ε α) :=
  fun a b =>
    match a, b with
    | Except.error e, Except.error f =>
      if h : e = f then Decidable.isTrue (by rw [h])
      else Decidable.isFalse (by intro hh; cases hh; exact h rfl)
    | Except.ok x, Except.ok y =>
      if h : x = y then Decidable.isTrue (by rw [h])
      else Decidable.isFalse (by intro hh; cases hh; exact h rfl)
    | Except.error _, Except.ok _ => Decidable.isFalse (by intro hh; cases hh)
    | Except.ok _, Except.error _ => Decidable.isFalse (by intro hh; cases hh)

theorem restore_ok_shape (okDb okUp : Bool) (bk : Dict) (s s' : VState)
    (h : restore_persistent_files okDb okUp bk s = Except.ok s') :
    s'.env = restore_env_file s.env bk ∧ s'.holding = none := by
  unfold restore_persistent_files at h
  split at h
  · cases h
  · rename_i s2 h2
    split at h
    · cases h
    · rename_i s3 h3
      cases h
      have hc2 := copyDb_ok _ _ _ h2
      have hc3 := copyUploads_ok _ _ _ h3
      constructor
      · show s3.env = _
        rw [hc3.1, hc2.1, envStep_env]
      · rfl

/-- C3: on every successful restore, the resulting configuration is the
snapshot merged over the existing configuration, snapshot values
winning on key collision; concretely, existing `{a:1, b:2}` merged with
snapshot `{b:3, c:4}` yields `{a:1, b:3, c:4}`. -/
theorem restore_env_merge_precedence (okDb okUp : Bool) (bk : Dict) (s s' : VState)
    (hbk : nodupKeys bk)
    (h : restore_persistent_files okDb okUp bk s = Except.ok s') :
    (∀ k, dictGet? s'.env k =
      match dictGet? bk k with
      | some v => some v
      | none => dictGet? s.env k) ∧
    restore_env_file [("a", "1"), ("b", "2")] [("b", "3"), ("c", "4")] =
      [("a", "1"), ("b", "3"), ("c", "4")] := by
  refine ⟨?_, by decide⟩
  intro k
  rw [(restore_ok_shape okDb okUp bk s s' h).1]
  unfold restore_env_file
  by_cases hbke : bk.isEmpty
  · have : bk = [] := by
      cases bk
      · rfl
      · cases hbke
    subst this
    simp [dictGet?]
  · rw [if_neg hbke]
    exact dictGet_merge s.env bk hbk k

/-- Witness for C3: restoring snapshot `{a:9}` over existing `{a:1}`
makes the snapshot value win. -/
theorem restore_env_merge_precedence_witness :
    dictGet? ((⟨[("a", "9")], none, none, none⟩ : VState)).env "a" = some "9" := by
  have h := (restore_env_merge_precedence true true [("a", "9")]
      ⟨[("a", "1")], none, none, none⟩ ⟨[("a", "9")], none, none, none⟩
      (by decide) (by decide)).1 "a"
  simpa using h

/-- C4 counterexample: with `database.db` present in the holding area
and its copy failing, `restore_persistent_files` raises (the error
escalates to the caller — there is no try/except around the copy), and
the holding area is NOT deleted: the state carried by the exception
still holds the backup. -/
theorem restore_copy_failure_escalates :
    restore_persistent_files false true []
        ⟨[], none, none, some ⟨some "DB", none⟩⟩ =
      Except.error ("copy2 failed", ⟨[], none, none, some ⟨some "DB", none⟩⟩) ∧
    (some (⟨some "DB", none⟩ : Holding)).isSome = true := by
  exact ⟨by decide, rfl⟩

/-- C4 (amended): an individual file-copy failure during restore raises
and escalates to the caller, and the holding area is then left in
place; the holding area is deleted exactly on the runs where no copy
fails. -/
theorem restore_copy_failure_semantics (bk : Dict) (s : VState) :
    (∃ s', restore_persistent_files true true bk s = Except.ok s' ∧
      s'.holding = none) ∧
    (∀ h b, s.holding = some h → h.db = some b → ∀ okUp,
      ∃ s', restore_persistent_files false okUp bk s = Except.error ("copy2 failed", s') ∧
        s'.holding = some h) := by
  constructor
  · obtain ⟨s2, h2⟩ := copyDb_total (envStep bk s)
    obtain ⟨s3, h3⟩ := copyUploads_total s2
    refine ⟨{ s3 with holding := none }, ?_, rfl⟩
    unfold restore_persistent_files
    simp only [h2, h3]
  · intro hld b hh hdb okUp
    have hs1 : (envStep bk s).holding = some hld := by
      rw [envStep_holding, hh]
    refine ⟨envStep bk s, ?_, hs1⟩
    unfold restore_persistent_files
    rw [copyDb_fail _ hld b hs1 hdb]

/-- Witness for the amended C4: with no holding area the restore
succeeds and leaves none behind; with a backed-up database file and a
failing copy, the error carries a state still holding the backup. -/
theorem restore_copy_failure_semantics_witness :
    (∃ s', restore_persistent_files true true []
        (⟨[], none, none, none⟩ : VState) = Except.ok s' ∧ s'.holding = none) ∧
    (∃ s', restore_persistent_files false true []
        (⟨[], none, none, some ⟨some "DB", none⟩⟩ : VState) =
          Except.error ("copy2 failed", s') ∧
      s'.holding = some ⟨some "DB", none⟩) :=
  ⟨(restore_copy_failure_semantics [] ⟨[], none, none, none⟩).1,
   (restore_copy_failure_semantics [] ⟨[], none, none, some ⟨some "DB", none⟩⟩).2
     ⟨some "DB", none⟩ "DB" rfl rfl true⟩

/-- C8 counterexample: calling restore with an already-deleted holding
area is not a no-op in general — with a non-empty config snapshot it
still rewrites the target `.env` (merging the snapshot in), so the
state changes even though the holding area is absent. -/
theorem restore_absent_holding_not_noop :
    restore_persistent_files true true [("a", "1")]
        (⟨[], none, none, none⟩ : VState) =
      Except.ok ⟨[("a", "1")], none, none, none⟩ ∧
    (⟨[("a", "1")], none, none, none⟩ : VState) ≠ ⟨[], none, none, none⟩ := by
  exact ⟨by decide, by decide⟩

/-- C8 (amended): calling restore with an already-deleted holding area
never raises and leaves the data file, the uploads tree and the (absent)
holding area unchanged — only the `.env` rewrite may still run; and a
second call to restore after any successful restore with the same
snapshot leaves the state exactly unchanged (restore is idempotent). -/
theorem restore_idempotent (okDb okUp okDb2 okUp2 : Bool) (bk : Dict) (s s1 : VState)
    (hbk : nodupKeys bk)
    (h : restore_persistent_files okDb okUp bk s = Except.ok s1) :
    restore_persistent_files okDb2 okUp2 bk s1 = Except.ok s1 ∧
    (∀ t : VState, t.holding = none →
      ∃ t', restore_persistent_files okDb2 okUp2 bk t = Except.ok t' ∧
        t'.db = t.db ∧ t'.uploads = t.uploads ∧ t'.holding = none) := by
  have hshape := restore_ok_shape okDb okUp bk s s1 h
  constructor
  · have henv : envStep bk s1 = s1 := by
      unfold envStep
      by_cases hbke : bk.isEmpty
      · rw [if_pos hbke]
      · rw [if_neg hbke]
        have he : restore_env_file s1.env bk = s1.env := by
          rw [hshape.1]
          unfold restore_env_file
          simp only [if_neg hbke]
          exact dictMerge_idem s.env bk hbk
        rw [he]
    unfold restore_persistent_files
    rw [henv]
    simp only [copyDb_of_holding_none okDb2 s1 hshape.2,
      copyUploads_of_holding_none okUp2 s1 hshape.2]
    rw [← hshape.2]
  · intro t ht
    have ht1 : (envStep bk t).holding = none := by
      rw [envStep_holding]
      exact ht
    have hrun : restore_persistent_files okDb2 okUp2 bk t =
        Except.ok { envStep bk t with holding := none } := by
      unfold restore_persistent_files
      simp only [copyDb_of_holding_none okDb2 _ ht1,
        copyUploads_of_holding_none okUp2 _ ht1]
    refine ⟨{ envStep bk t with holding := none }, hrun, ?_, ?_, rfl⟩
    · show (envStep bk t).db = t.db
      exact envStep_db bk t
    · show (envStep bk t).uploads = t.uploads
      exact envStep_uploads bk t

/-- Witness for the amended C8: after restoring snapshot `{a:1}` into an
empty target, a second restore returns the same state unchanged. -/
theorem restore_idempotent_witness :
    restore_persistent_files true true [("a", "1")]
        (⟨[("a", "1")], none, none, none⟩ : VState) =
      Except.ok ⟨[("a", "1")], none, none, none⟩ :=
  (restore_idempotent true true true true [("a", "1")]
    ⟨[], none, none, none⟩ ⟨[("a", "1")], none, none, none⟩
    (by decide) (by decide)).1

/-! ## The orchestrator: `check_and_update` and `run_with_updates`
(src/start.py lines 124-308), over a world state with outcome oracles
for the network, the download stream, the extraction, the backup and
restore copies, and the launch. -/

/-- One release asset (`name` and `browser_download_url`). -/
structure Asset where
  name : String
  url : String
deriving DecidableEq

/-- The release descriptor returned by `get_latest_release`
(`tag_name` plus the asset list). -/
structure Release where
  tag_name : String
  assets : List Asset
deriving DecidableEq

/-- The supervised child process handle; `alive` is
`poll() is None`. -/
structure Proc where
  alive : Bool
deriving DecidableEq

/-- Observable actions of one orchestrator cycle, recorded in order. -/
inductive Action
  | launchAttempt (dir : String)
  | downloadAttempt
  | stopped
deriving DecidableEq

/-- Outcome of `download_progress` (src/start.py lines 133-157): the
stream may fail before the temp file is opened (`requests.get` /
`raise_for_status`, lines 135-136) or after it has been created
(lines 141-151). -/
inductive DlOutcome
  | ok
  | failBeforeCreate
  | failAfterCreate
deriving DecidableEq

/-- Outcomes of the external collaborators during one
`check_and_update` cycle. -/
structure Oracles where
  fetch : Option Release
  backupCopyOk : Bool
  dl : DlOutcome
  extractOk : Bool
  restoreOk : Bool
  launchOk : Bool
deriving DecidableEq

/-- World state of the orchestrator: the root directory listing, whether
the newest installed version carries persistent state to copy during
backup, whether `cdn_backup_temp/` exists, the process handle, and the
recorded action log of the current run. -/
structure OWorld where
  entries : List Entry
  newestHasState : Bool
  backupTemp : Bool
  process : Option Proc
  log : List Action
deriving DecidableEq

/-- Uncaught Python exceptions of the orchestrator: `ValueError` from
`int()` on a malformed tag (line 240), and `shutil` copy errors from
backup/restore (lines 75, 79, 89, 93). -/
inductive Exn
  | valueError
  | copyError
deriving DecidableEq

/-- `name.endswith(suffix)`. -/
def strEndsWith (s suf : String) : Bool :=
  s.toList.reverse.take suf.toList.length == suf.toList.reverse

def removeName (nm : String) (es : List Entry) : List Entry :=
  es.filter fun e => e.name != nm

def removeNames (nms : List String) (es : List Entry) : List Entry :=
  es.filter fun e => !(nms.contains e.name)

def addEntry (e : Entry) (w : OWorld) : OWorld :=
  { w with entries := w.entries ++ [e] }

def logA (a : Action) (w : OWorld) : OWorld :=
  { w with log := w.log ++ [a] }

/-- The state of a `check_and_update` run when an uncaught exception
escapes (`Except.error`) or the function returns (`Except.ok`). -/
def resultWorld : Except (Exn × OWorld) OWorld → OWorld
  | Except.ok w => w
  | Except.error (_, w) => w

/-- `int(tag.replace('.', ''))` (src/start.py line 240): remove the
dots; if the remaining characters are a non-empty digit string its
decimal value, otherwise `ValueError` (`none`). -/
def intOfTag (tag : String) : Option Nat :=
  let ds := tag.toList.filter (fun c => c != '.')
  if !ds.isEmpty && ds.all Char.isDigit then some (digitsToNat ds) else none

/-- `launch_cdn` (src/start.py lines 203-220): the call is recorded as
a launch attempt on the directory; on success `self.process` is set to
a live handle, on `No entry point` or a `Popen` error the function
returns `None` and `self.process` is left unchanged. -/
def launch_cdn (o : Oracles) (dir : String) (w : OWorld) : OWorld :=
  let w1 := logA (Action.launchAttempt dir) w
  if o.launchOk then { w1 with process := some ⟨true⟩ } else w1

/-- `stop_cdn` (src/start.py lines 186-201): only acts when a handle is
present and `poll() is None`; a dead handle is kept. -/
def stop_cdn (w : OWorld) : OWorld :=
  match w.process with
  | some p =>
    if p.alive then { w with process := none, log := w.log ++ [Action.stopped] }
    else w
  | none => w

/-- `backup_persistent_files` at orchestration granularity
(src/start.py lines 56-81): `os.makedirs(backup_dir, exist_ok=True)`
always creates `cdn_backup_temp/` first; the `.env` read is inside
try/except, but the `shutil.copy2` / `shutil.copytree` of the
database file and uploads tree (lines 73-79) are not — when the newest
version has such state and the copy oracle fails, the exception
escapes with the holding area already created. -/
def backup_persistent_files (o : Oracles) (w : OWorld) : Except (Exn × OWorld) OWorld :=
  let w1 := { w with backupTemp := true }
  if w1.newestHasState && !o.backupCopyOk then Except.error (Exn.copyError, w1)
  else Except.ok w1

/-- `restore_persistent_files` at orchestration granularity
(src/start.py lines 83-95): an uncaught copy error escapes before the
holding area is removed; on success `shutil.rmtree(backup_dir, ...)`
removes `cdn_backup_temp/`. -/
def restore_step (o : Oracles) (w : OWorld) : Except (Exn × OWorld) OWorld :=
  if o.restoreOk then Except.ok { w with backupTemp := false }
  else Except.error (Exn.copyError, w)

/-- `asset['name'].endswith('.zip')` selection (src/start.py
lines 161-164): the first asset whose name ends in `.zip`. -/
def hasZipAsset (rel : Release) : Option Asset :=
  rel.assets.find? fun a => strEndsWith a.name ".zip"

def tempZipName (version : String) : String :=
  "cdn-" ++ version ++ "-temp.zip"

/-- `download_and_extract` (src/start.py lines 159-184).  No zip asset:
return `None`.  Otherwise stream to `cdn-<version>-temp.zip`; if the
stream fails the function returns `None` at line 172 without touching
anything (the temp file stays on disk when it was already created).
On a completed download, extraction creates `cdn-<version>` and the
temp file is removed on both extraction outcomes (lines 178 and
182-183); on extraction failure the partially-created target directory
is left and `None` is returned. -/
def download_and_extract (o : Oracles) (rel : Release) (version : String)
    (w : OWorld) : Option String × OWorld :=
  match hasZipAsset rel with
  | none => (none, w)
  | some _ =>
    let w1 := logA Action.downloadAttempt w
    match o.dl with
    | DlOutcome.failBeforeCreate => (none, w1)
    | DlOutcome.failAfterCreate => (none, addEntry ⟨tempZipName version, false⟩ w1)
    | DlOutcome.ok =>
      let w2 := addEntry ⟨tempZipName version, false⟩ w1
      let w3 := addEntry ⟨"cdn-" ++ version, true⟩ w2
      if o.extractOk then
        (some ("cdn-" ++ version), { w3 with entries := removeName (tempZipName version) w3.entries })
      else
        (none, { w3 with entries := removeName (tempZipName version) w3.entries })

/-- The update branch of `check_and_update` (src/start.py
lines 249-269): stop the process, download+extract; on failure fall
back to launching the previously installed version when one exists; on
success restore persistent state and remove the old version directory
(when an old version existed), then launch the new directory. -/
def do_update (o : Oracles) (newest : Option CdnDir) (rel : Release) (w : OWorld) :
    Except (Exn × OWorld) OWorld :=
  match download_and_extract o rel rel.tag_name (stop_cdn w) with
  | (none, w2) =>
    match newest with
    | some nw => Except.ok (launch_cdn o nw.path w2)
    | none => Except.ok w2
  | (some newPath, w2) =>
    match newest with
    | some nw =>
      match restore_step o w2 with
      | Except.error e => Except.error e
      | Except.ok w3 =>
        Except.ok (launch_cdn o newPath { w3 with entries := removeName nw.path w3.entries })
    | none => Except.ok (launch_cdn o newPath w2)

/-- A call to `get_newest_cdn` together with its side effect on the
root: the returned newest entry, and the world with the non-newest
matching directories removed (their deletion is attempted at
src/start.py lines 47-52; the model lets each deletion succeed). -/
def pruneWorld (w0 : OWorld) : Option CdnDir × OWorld :=
  ((get_newest_cdn w0.entries).1,
   { w0 with entries :=
      removeNames (((get_newest_cdn w0.entries).2).map CdnDir.path) w0.entries })

/-- `check_and_update` (src/start.py lines 222-269): fetch the release
(pure oracle read), discover the newest installed version (pruning the
non-newest matching directories), back up its persistent state when
one exists, then branch: fetch failure (lines 233-237) launches the
installed version only when `self.process` is `None`; a malformed tag
raises `ValueError` at line 240; the up-to-date branch (lines 242-247)
relaunches when the handle is absent or dead; otherwise the update
branch runs. -/
def check_and_update (o : Oracles) (w0 : OWorld) : Except (Exn × OWorld) OWorld :=
  match pruneWorld w0 with
  | (newest, w1) =>
    match (match newest with
           | some _ => backup_persistent_files o w1
           | none => Except.ok w1) with
    | Except.error e => Except.error e
    | Except.ok w2 =>
      match o.fetch with
      | none =>
        match newest with
        | some nw =>
          if w2.process.isNone then Except.ok (launch_cdn o nw.path w2)
          else Except.ok w2
        | none => Except.ok w2
      | some rel =>
        match intOfTag rel.tag_name with
        | none => Except.error (Exn.valueError, w2)
        | some latestNum =>
          match newest with
          | some nw =>
            if nw.version_num = latestNum then
              Except.ok
                (match w2.process with
                 | none => launch_cdn o nw.path w2
                 | some p => if p.alive then w2 else launch_cdn o nw.path w2)
            else do_update o newest rel w2
          | none => do_update o newest rel w2

/-- One iteration of the `while True` body of `run_with_updates`
(src/start.py lines 278-300): run `check_and_update` when the webhook
flag is present or the interval elapsed (an uncaught exception
propagates out of the loop — the surrounding `try` catches only
`KeyboardInterrupt`), then the dead-process check (lines 294-298)
relaunches the newest installed version when the handle is present and
dead. -/
def loop_tick (o : Oracles) (flag due : Bool) (w : OWorld) :
    Except (Exn × OWorld) OWorld :=
  match (if flag then check_and_update o w
         else if due then check_and_update o w
         else Except.ok w) with
  | Except.error e => Except.error e
  | Except.ok w1 =>
    match w1.process with
    | some p =>
      if p.alive then Except.ok w1
      else
        match pruneWorld w1 with
        | (some nw, w2) => Except.ok (launch_cdn o nw.path w2)
        | (none, w2) => Except.ok w2
    | none => Except.ok w1

def run_ticks : List (Oracles × Bool × Bool) → OWorld → Except (Exn × OWorld) OWorld
  | [], w => Except.ok w
  | t :: ts, w =>
    match loop_tick t.1 t.2.1 t.2.2 w with
    | Except.error e => Except.error e
    | Except.ok w1 => run_ticks ts w1

/-- `run_with_updates` (src/start.py lines 271-308) over a finite
script of ticks: the startup `check_and_update` at line 274 runs
before the `try`, so any uncaught exception from it, or from a
`check_and_update` inside the loop (the `try` catches only
`KeyboardInterrupt`), terminates the supervisor — modelled as the
`Except.error` outcome. -/
def run_with_updates (o0 : Oracles) (script : List (Oracles × Bool × Bool))
    (w : OWorld) : Except (Exn × OWorld) OWorld :=
  match check_and_update o0 w with
  | Except.error e => Except.error e
  | Except.ok w1 => run_ticks script w1

/-- A cycle whose oracles can not produce one of the uncaught
exceptions: a parseable tag whenever the fetch succeeds, and no
backup/restore copy failure.  Download, extraction and launch failures
remain unconstrained. -/
def goodTag : Option Release → Bool
  | none => true
  | some rel => (intOfTag rel.tag_name).isSome

abbrev goodOracle (o : Oracles) : Prop :=
  goodTag o.fetch = true ∧ o.backupCopyOk = true ∧ o.restoreOk = true

theorem launch_cdn_log (o : Oracles) (d : String) (w : OWorld) :
    (launch_cdn o d w).log = w.log ++ [Action.launchAttempt d] := by
  unfold launch_cdn logA
  by_cases hl : o.launchOk <;> simp [hl]

theorem launch_cdn_backupTemp (o : Oracles) (d : String) (w : OWorld) :
    (launch_cdn o d w).backupTemp = w.backupTemp := by
  unfold launch_cdn logA
  by_cases hl : o.launchOk <;> simp [hl]

theorem stop_cdn_backupTemp (w : OWorld) : (stop_cdn w).backupTemp = w.backupTemp := by
  rcases w with ⟨es, nh, bt, _ | ⟨_ | _⟩, lg⟩ <;> rfl

theorem not_mem_removeName (nm : String) (es : List Entry) :
    nm ∉ (removeName nm es).map Entry.name := by
  intro h
  obtain ⟨e, he, hname⟩ := List.mem_map.mp h
  have hf := List.mem_filter.mp he
  rw [hname] at hf
  simp at hf

theorem download_backupTemp (o : Oracles) (rel : Release) (v : String) (w : OWorld) :
    ((download_and_extract o rel v w).2).backupTemp = w.backupTemp := by
  unfold download_and_extract
  cases hz : hasZipAsset rel
  · rfl
  · cases hdl : o.dl
    · cases he : o.extractOk <;> simp [he, addEntry, logA, removeName]
    · simp [logA]
    · simp [addEntry, logA]

/-- C10: when the release has a zip asset and the download stream fails
after the temporary file `cdn-<version>-temp.zip` has been created,
`download_and_extract` returns nothing and the temporary file is still
present; when the download completes, the temporary file is absent
afterwards on both extraction outcomes — it is deleted only there. -/
theorem download_failure_keeps_temp (o : Oracles) (rel : Release) (v : String)
    (w : OWorld) (ha : (hasZipAsset rel).isSome = true) :
    (o.dl = DlOutcome.failAfterCreate →
      (download_and_extract o rel v w).1 = none ∧
      tempZipName v ∈ ((download_and_extract o rel v w).2.entries.map Entry.name)) ∧
    (o.dl = DlOutcome.ok →
      tempZipName v ∉ ((download_and_extract o rel v w).2.entries.map Entry.name)) := by
  obtain ⟨a, hA⟩ := Option.isSome_iff_exists.mp ha
  constructor
  · intro hdl
    unfold download_and_extract
    rw [hA, hdl]
    refine ⟨rfl, ?_⟩
    simp [addEntry, logA]
  · intro hdl
    unfold download_and_extract
    rw [hA, hdl]
    cases he : o.extractOk <;> simp only [he] <;> exact not_mem_removeName _ _

def dlFailOracle : Oracles := ⟨none, true, DlOutcome.failAfterCreate, true, true, true⟩

def relDemo : Release := ⟨"1.3.0", [⟨"site.zip", "u"⟩]⟩

def wEmpty : OWorld := ⟨[], false, false, none, []⟩

/-- Witness for C10: with a one-asset release and a stream failure after
file creation, the call returns nothing and `cdn-1.3.0-temp.zip` is
left on disk. -/
theorem download_failure_keeps_temp_witness :
    (download_and_extract dlFailOracle relDemo "1.3.0" wEmpty).1 = none ∧
    tempZipName "1.3.0" ∈
      ((download_and_extract dlFailOracle relDemo "1.3.0" wEmpty).2.entries.map Entry.name) :=
  (download_failure_keeps_temp dlFailOracle relDemo "1.3.0" wEmpty (by decide)).1 rfl

def fetchFailOracle : Oracles := ⟨none, true, DlOutcome.ok, true, true, true⟩

/-- C7 counterexample: the release fetch fails, an installed version
(`cdn-1.2.3`) exists, and no process is currently running — the handle
is present but dead (`poll()` not `None`) — yet `check_and_update`
performs no launch (empty action log): line 235 tests `not
self.process`, which is false for a dead handle, so the claimed
fallback launch does not happen. -/
theorem fetch_failure_no_launch_with_dead_handle :
    (get_newest_cdn [⟨"cdn-1.2.3", true⟩]).1.isSome = true ∧
    ((⟨[⟨"cdn-1.2.3", true⟩], false, false, some ⟨false⟩, []⟩ : OWorld)).process =
      some ⟨false⟩ ∧
    check_and_update fetchFailOracle
        ⟨[⟨"cdn-1.2.3", true⟩], false, false, some ⟨false⟩, []⟩ =
      Except.ok ⟨[⟨"cdn-1.2.3", true⟩], false, true, some ⟨false⟩, []⟩ :=
  ⟨by decide, rfl, by decide⟩

/-- C7 (amended): when the release fetch fails, no download is ever
attempted; and if an installed version exists and no process HANDLE is
present (`self.process is None` — a dead but unreaped handle prevents
the fallback), `check_and_update` launches that installed version. -/
theorem fetch_failure_fallback (o : Oracles) (w : OWorld)
    (hf : o.fetch = none) (hlog : w.log = []) :
    (Action.downloadAttempt ∉ (resultWorld (check_and_update o w)).log) ∧
    (∀ nw del, get_newest_cdn w.entries = (some nw, del) → w.process = none →
      o.backupCopyOk = true →
      ∃ w', check_and_update o w = Except.ok w' ∧
        Action.launchAttempt nw.path ∈ w'.log) := by
  constructor
  · unfold check_and_update
    cases hnw : (get_newest_cdn w.entries).1
    · simp only [pruneWorld, hnw, hf]
      simp [resultWorld, hlog]
    · simp only [pruneWorld, hnw, hf, backup_persistent_files]
      by_cases hcond : (w.newestHasState && !o.backupCopyOk) = true
      · simp [hcond, resultWorld, hlog]
      · rw [if_neg hcond]
        cases hp : w.process with
        | none => simp [hp, resultWorld, launch_cdn_log, hlog]
        | some p => simp [hp, resultWorld, hlog]
  · intro nw del hpr hproc hbk
    unfold check_and_update
    simp only [pruneWorld, hpr, hf, backup_persistent_files, hbk, Bool.not_true,
      Bool.and_false, Bool.false_eq_true, if_false, hproc, Option.isNone_none, if_true]
    refine ⟨_, rfl, ?_⟩
    rw [launch_cdn_log]
    simp

def wDead : OWorld := ⟨[⟨"cdn-1.2.3", true⟩], false, false, some ⟨false⟩, []⟩

def wInst : OWorld := ⟨[⟨"cdn-1.2.3", true⟩], false, false, none, []⟩

/-- Witness for the amended C7: fetch failure with an installed
`cdn-1.2.3` and no process handle launches that version, and no
download is attempted. -/
theorem fetch_failure_fallback_witness :
    ∃ w', check_and_update fetchFailOracle wInst = Except.ok w' ∧
      Action.launchAttempt "cdn-1.2.3" ∈ w'.log :=
  (fetch_failure_fallback fetchFailOracle wInst rfl rfl).2
    ⟨"cdn-1.2.3", "1.2.3", 123⟩ [] (by decide) rfl rfl

/-- C5 counterexample: a completed `check_and_update` cycle on the
fetch-failure branch, with an installed version present, leaves the
transient holding area `cdn_backup_temp/` in the working root
(`backupTemp = true` in the result): `backup_persistent_files` created
it at line 59 and the early `return` at line 237 never removes it. -/
theorem backup_temp_left_after_fetch_failure :
    check_and_update fetchFailOracle wInst =
      Except.ok ⟨[⟨"cdn-1.2.3", true⟩], false, true, some ⟨true⟩,
        [Action.launchAttempt "cdn-1.2.3"]⟩ ∧
    ((⟨[⟨"cdn-1.2.3", true⟩], false, true, some ⟨true⟩,
        [Action.launchAttempt "cdn-1.2.3"]⟩ : OWorld)).backupTemp = true ∧
    wInst.backupTemp = false :=
  ⟨by decide, rfl, rfl⟩

theorem stop_cdn_log_sub (w : OWorld) :
    ∃ t, (stop_cdn w).log = w.log ++ t := by
  rcases w with ⟨es, nh, bt, _ | ⟨_ | _⟩, lg⟩
  · exact ⟨[], by simp [stop_cdn]⟩
  · exact ⟨[], by simp [stop_cdn]⟩
  · exact ⟨[Action.stopped], by simp [stop_cdn]⟩

/-- `do_update` with no previously installed version never fails and
never touches the holding-area flag (no restore runs on the
fresh-install path, lines 260-266 are skipped). -/
theorem do_update_none_backupTemp (o : Oracles) (rel : Release) (w : OWorld) :
    ∃ w', do_update o none rel w = Except.ok w' ∧ w'.backupTemp = w.backupTemp := by
  unfold do_update
  cases hdl : download_and_extract o rel rel.tag_name (stop_cdn w) with
  | mk res w2 =>
    have hbt : w2.backupTemp = w.backupTemp := by
      have h1 := download_backupTemp o rel rel.tag_name (stop_cdn w)
      rw [hdl] at h1
      rw [h1, stop_cdn_backupTemp]
    cases res with
    | none => exact ⟨w2, rfl, hbt⟩
    | some newPath =>
      refine ⟨_, rfl, ?_⟩
      rw [launch_cdn_backupTemp]
      exact hbt

/-- C5 (amended): the holding area is guaranteed absent after a cycle
only on two kinds of cycles — when no installed version existed at the
start (no backup is ever created, the flag is untouched), and when the
cycle performed a successful update (restore removes it at line 95).
On fetch-failure, up-to-date and download-failure cycles with an
installed version present, `cdn_backup_temp/` is left behind. -/
theorem backup_temp_lifecycle (o : Oracles) (w : OWorld) :
    ((get_newest_cdn w.entries).1 = none →
      (resultWorld (check_and_update o w)).backupTemp = w.backupTemp) ∧
    (∀ nw del rel n, get_newest_cdn w.entries = (some nw, del) →
      o.fetch = some rel → intOfTag rel.tag_name = some n →
      nw.version_num ≠ n → (hasZipAsset rel).isSome = true →
      o.dl = DlOutcome.ok → o.extractOk = true →
      o.restoreOk = true → o.backupCopyOk = true →
      ∃ w', check_and_update o w = Except.ok w' ∧ w'.backupTemp = false) := by
  constructor
  · intro hnw
    unfold check_and_update
    simp only [pruneWorld, hnw]
    cases hf : o.fetch with
    | none => simp [resultWorld]
    | some rel =>
      cases hn : intOfTag rel.tag_name with
      | none => simp [hn, resultWorld]
      | some n =>
        obtain ⟨w', hw', hbt⟩ := do_update_none_backupTemp o rel
          { w with entries :=
              removeNames (((get_newest_cdn w.entries).2).map CdnDir.path) w.entries }
        simp only [hn]
        rw [hw']
        simpa [resultWorld] using hbt
  · intro nw del rel n hpr hf hn hne hzip hdl hex hres hbk
    unfold check_and_update
    simp only [pruneWorld, hpr, hf, backup_persistent_files, hbk, Bool.not_true,
      Bool.and_false, Bool.false_eq_true, if_false, hn, if_neg hne]
    unfold do_update
    obtain ⟨a, hA⟩ := Option.isSome_iff_exists.mp hzip
    unfold download_and_extract
    rw [hA, hdl]
    simp only [hex, if_true, restore_step, hres]
    refine ⟨_, rfl, ?_⟩
    rw [launch_cdn_backupTemp]

def updOracle : Oracles :=
  ⟨some ⟨"1.3.0", [⟨"site.zip", "u"⟩]⟩, true, DlOutcome.ok, true, true, true⟩

/-- Witness for the amended C5: a successful update from `cdn-1.2.3` to
`1.3.0` ends with the holding area removed. -/
theorem backup_temp_lifecycle_witness :
    ∃ w', check_and_update updOracle wInst = Except.ok w' ∧ w'.backupTemp = false :=
  (backup_temp_lifecycle updOracle wInst).2 ⟨"cdn-1.2.3", "1.2.3", 123⟩ []
    ⟨"1.3.0", [⟨"site.zip", "u"⟩]⟩ 130 (by decide) rfl (by decide) (by decide)
    (by decide) rfl rfl rfl rfl

theorem restore_branch_ok (o : Oracles) (nw : CdnDir) (newPath : String) (w2 : OWorld)
    (hr : o.restoreOk = true) :
    ∃ w', (match restore_step o w2 with
           | Except.error e => Except.error e
           | Except.ok w3 =>
             Except.ok (launch_cdn o newPath
               { w3 with entries := removeName nw.path w3.entries }) :
           Except (Exn × OWorld) OWorld) = Except.ok w' := by
  have hres : restore_step o w2 = Except.ok { w2 with backupTemp := false } := by
    simp [restore_step, hr]
  rw [hres]
  exact ⟨_, rfl⟩

theorem do_update_ok (o : Oracles) (ne : Option CdnDir) (rel : Release) (w : OWorld)
    (hr : o.restoreOk = true) :
    ∃ w', do_update o ne rel w = Except.ok w' := by
  unfold do_update
  cases hdl : download_and_extract o rel rel.tag_name (stop_cdn w) with
  | mk res w2 =>
    cases res with
    | none =>
      cases ne with
      | none => exact ⟨_, rfl⟩
      | some nw => exact ⟨_, rfl⟩
    | some newPath =>
      cases ne with
      | none => exact ⟨_, rfl⟩
      | some nw => exact restore_branch_ok o nw newPath w2 hr

theorem check_and_update_ok (o : Oracles) (w : OWorld) (h : goodOracle o) :
    ∃ w', check_and_update o w = Except.ok w' := by
  obtain ⟨ht, hb, hr⟩ := h
  unfold check_and_update
  cases hnw : (get_newest_cdn w.entries).1 with
  | none =>
    simp only [pruneWorld, hnw]
    cases hf : o.fetch with
    | none => exact ⟨_, rfl⟩
    | some rel =>
      rw [hf] at ht
      simp only [goodTag] at ht
      obtain ⟨n, hn⟩ := Option.isSome_iff_exists.mp ht
      simp only [hn]
      exact do_update_ok o none rel _ hr
  | some nw =>
    simp only [pruneWorld, hnw, backup_persistent_files, hb, Bool.not_true,
      Bool.and_false, Bool.false_eq_true, if_false]
    cases hf : o.fetch with
    | none =>
      cases hp : w.process with
      | none => exact ⟨_, rfl⟩
      | some p => exact ⟨_, rfl⟩
    | some rel =>
      rw [hf] at ht
      simp only [goodTag] at ht
      obtain ⟨n, hn⟩ := Option.isSome_iff_exists.mp ht
      simp only [hn]
      by_cases heq : nw.version_num = n
      · rw [if_pos heq]
        exact ⟨_, rfl⟩
      · rw [if_neg heq]
        exact do_update_ok o (some nw) rel _ hr

theorem tail_ok (o : Oracles) (w1 : OWorld) :
    ∃ w', (match w1.process with
           | some p =>
             if p.alive then Except.ok w1
             else
               match pruneWorld w1 with
               | (some nw, w2) => Except.ok (launch_cdn o nw.path w2)
               | (none, w2) => Except.ok w2
           | none => Except.ok w1 : Except (Exn × OWorld) OWorld) = Except.ok w' := by
  rcases w1 with ⟨es, nh, bt, _ | ⟨_ | _⟩, lg⟩
  · exact ⟨_, rfl⟩
  · cases hprw : pruneWorld ⟨es, nh, bt, some ⟨false⟩, lg⟩ with
    | mk onw w2 =>
      cases onw
      · exact ⟨_, rfl⟩
      · exact ⟨_, rfl⟩
  · exact ⟨_, rfl⟩

theorem loop_tick_ok (o : Oracles) (flag due : Bool) (w : OWorld) (h : goodOracle o) :
    ∃ w', loop_tick o flag due w = Except.ok w' := by
  obtain ⟨w1, hw1⟩ := check_and_update_ok o w h
  unfold loop_tick
  cases flag with
  | true =>
    have hif : (if (true : Bool) then check_and_update o w
        else if due then check_and_update o w else Except.ok w) = check_and_update o w := rfl
    rw [hif, hw1]
    exact tail_ok o w1
  | false =>
    cases due with
    | true =>
      have hif : (if (false : Bool) then check_and_update o w
          else if (true : Bool) then check_and_update o w else Except.ok w) =
            check_and_update o w := rfl
      rw [hif, hw1]
      exact tail_ok o w1
    | false =>
      have hif : (if (false : Bool) then check_and_update o w
          else if (false : Bool) then check_and_update o w else Except.ok w) =
            Except.ok w := rfl
      rw [hif]
      exact tail_ok o w

theorem run_ticks_ok (script : List (Oracles × Bool × Bool)) :
    ∀ w : OWorld, (∀ t ∈ script, goodOracle t.1) →
      ∃ w', run_ticks script w = Except.ok w' := by
  induction script with
  | nil =>
    intro w _
    exact ⟨w, rfl⟩
  | cons t ts ih =>
    intro w hs
    obtain ⟨w1, hw1⟩ := loop_tick_ok t.1 t.2.1 t.2.2 w (hs t (List.mem_cons_self t ts))
    unfold run_ticks
    rw [hw1]
    exact ih w1 (fun q hq => hs q (List.mem_cons_of_mem t hq))

def badTagOracle : Oracles := ⟨some ⟨"v1.2.3", []⟩, true, DlOutcome.ok, true, true, true⟩

/-- C2 counterexample: a release whose tag is `v1.2.3` (a perfectly
ordinary malformed-for-`int()` tag) makes `check_and_update` raise
`ValueError` at line 240 (`int('v123')`); `run_with_updates` catches
only `KeyboardInterrupt`, so the exception terminates the supervisor —
refuting the claim that no `checkAndUpdate` failure ever aborts the
control loop. -/
theorem run_with_updates_aborts_on_bad_tag :
    run_with_updates badTagOracle [] ⟨[], false, false, none, []⟩ =
      Except.error (Exn.valueError, ⟨[], false, false, none, []⟩) := by decide

/-- C2 (amended): `run_with_updates` survives every cycle whose
failures are of the caught kinds — network fetch failure, download
failure, extraction failure, launch failure — and only aborts on the
uncaught exceptions: a malformed release tag (`int()` `ValueError` at
line 240) or a file-copy failure during backup/restore (lines 75, 79,
89, 93).  With a parseable-or-absent tag and no copy failure on every
tick, the loop always completes, whatever the download, extraction and
launch outcomes. -/
theorem run_with_updates_survives_good_ticks (o0 : Oracles)
    (script : List (Oracles × Bool × Bool)) (w : OWorld)
    (h0 : goodOracle o0) (hs : ∀ t ∈ script, goodOracle t.1) :
    ∃ w', run_with_updates o0 script w = Except.ok w' := by
  obtain ⟨w1, hw1⟩ := check_and_update_ok o0 w h0
  unfold run_with_updates
  rw [hw1]
  exact run_ticks_ok script w1 hs

def survOracle : Oracles :=
  ⟨some ⟨"1.3.0", [⟨"site.zip", "u"⟩]⟩, true, DlOutcome.failBeforeCreate, false, true, true⟩

/-- Witness for the amended C2: a startup cycle with a fetch failure
followed by a signal-triggered cycle whose download fails — the
supervisor survives both. -/
theorem run_with_updates_survives_good_ticks_witness :
    ∃ w', run_with_updates fetchFailOracle [(survOracle, true, false)] wInst =
      Except.ok w' :=
  run_with_updates_survives_good_ticks fetchFailOracle [(survOracle, true, false)]
    wInst (by decide) (by decide)

end SiteAdmin

